import Mathlib

/-!
Shallow embedding of the bearer-token validation engine in
`pkg/auth/auth.go` (package `auth` of go-service-kit).

Modelling conventions:
* Go `map[string]T` becomes an association list `AList T` with
  `alookup` / `ainsert` / `aerase` mirroring Go map read / write / delete.
* `jwt.MapClaims` (`map[string]interface{}`) becomes `AList JValue`
  where `JValue` is the dynamic type of a decoded JSON claim value.
* `time.Time` becomes `Int` (Unix seconds); `time.Now()` becomes an
  explicit `now : Int` argument threaded through every function.
* A failed Go type assertion without the `, ok` form (a run-time panic)
  is the `GoRes.panic` outcome; `error` returns become `GoRes.err`.
* `jwt.Parse` performs cryptographic signature verification against an
  external JWKS, so `ValidateRequest` takes the outcome of that call as
  an oracle argument (`ParseOutcome`); everything downstream of the
  parse is modelled from the source.
-/

namespace Auth

/-- Dynamic type of a decoded claim value (Go `interface{}` after JSON
decoding): a string, a number (Go `float64`; modelled at the second
granularity the validator uses), or any other shape. -/
inductive JValue where
  | str (s : String)
  | num (n : Int)
  | other
deriving DecidableEq, Repr

/-- Association-list model of a Go `map[string]α`. -/
abbrev AList (α : Type) : Type := List (String × α)

/-- Go map read `m[k]` (with the `, ok` form deciding presence). -/
def alookup {α : Type} : AList α → String → Option α
  | [], _ => none
  | (k, v) :: rest, key => if k = key then some v else alookup rest key

/-- Go map write `m[k] = v`. -/
def ainsert {α : Type} : AList α → String → α → AList α
  | [], k, v => [(k, v)]
  | (k', v') :: rest, k, v =>
      if k' = k then (k, v) :: rest else (k', v') :: ainsert rest k v

/-- Go map delete `delete(m, k)`. -/
def aerase {α : Type} : AList α → String → AList α
  | [], _ => []
  | (k', v') :: rest, k =>
      if k' = k then rest else (k', v') :: aerase rest k

/-- The claim set decoded from a token body (`jwt.MapClaims`). -/
abbrev Claims : Type := AList JValue

/-- The double type assertion `if x, ok := claims[k]; ok { if n, ok := x.(float64); ok { ... } }`:
the numeric value of claim `k` when present with numeric type. -/
def numClaim (claims : Claims) (k : String) : Option Int :=
  match alookup claims k with
  | some (JValue.num n) => some n
  | _ => none

/-- Outcome of running a Go function that can return an `error` or hit a
run-time panic (failed unchecked type assertion). -/
inductive GoRes where
  | panic
  | err (msg : String)
  | ok
deriving DecidableEq, Repr

/-- `validateTimeClaims` (auth.go): checks `exp`, `iat`, `nbf` in that
order; each claim is consulted only when present with `float64` type
(the checked assertion); `time.Unix(n,0).Before(now)` is `n < now` and
`After` is `>` at second granularity. -/
def validateTimeClaims (now : Int) (claims : Claims) : GoRes :=
  if (numClaim claims "exp").any (fun expTime => decide (expTime < now)) then
    GoRes.err "token has expired"
  else if (numClaim claims "iat").any (fun iatTime => decide (iatTime > now + 5 * 60)) then
    GoRes.err "token issued in the future"
  else if (numClaim claims "nbf").any (fun nbfTime => decide (nbfTime > now)) then
    GoRes.err "token not yet valid"
  else GoRes.ok

/-- `strings.Contains(hay, needle)` needs a prefix test; so does
`strings.TrimPrefix`. Whether the first list is a leading segment of the
second. -/
def listIsPre : List Char → List Char → Bool
  | [], _ => true
  | _ :: _, [] => false
  | a :: as, b :: bs => a = b && listIsPre as bs

/-- `strings.TrimPrefix(s, "api://")`: drop the leading `"api://"` when
present, otherwise return `s` unchanged. -/
def stripApi (s : String) : String :=
  if listIsPre "api://".data s.data then String.mk (s.data.drop 6) else s

/-- `validateAudience` (auth.go): the `aud` claim is read with a plain
(unchecked) `aud.(string)` type assertion, so a present non-string value
panics; a present string is compared to `clientID` after stripping an
optional `"api://"`; a missing claim is an error. -/
def validateAudience (clientID : String) (claims : Claims) : GoRes :=
  match alookup claims "aud" with
  | some (JValue.str s) =>
      let audience := stripApi s
      if audience = clientID then GoRes.ok
      else GoRes.err ("invalid audience: expected " ++ clientID ++ ", got " ++ audience)
  | some _ => GoRes.panic
  | none => GoRes.err "missing audience claim"

/-- `strings.Contains(hay, needle)`: whether `needle` occurs as a
contiguous substring of `hay` (on the character lists). -/
def goContains (hay needle : String) : Bool :=
  let rec go : List Char → Bool
    | [] => listIsPre needle.data []
    | c :: rest => listIsPre needle.data (c :: rest) || go rest
  go hay.data

/-- `validateScope` (auth.go): skipped entirely when no scope is
configured; `scp` is read with an unchecked `scp.(string)` assertion
(panic on non-string); the required scope must be contained as a
substring; a missing claim is an error. -/
def validateScope (requiredScope : String) (claims : Claims) : GoRes :=
  if requiredScope = "" then GoRes.ok
  else
    match alookup claims "scp" with
    | some (JValue.str scope) =>
        if goContains scope requiredScope then GoRes.ok
        else GoRes.err ("insufficient scope: required " ++ requiredScope ++ ", got " ++ scope)
    | some _ => GoRes.panic
    | none => GoRes.err "missing scope claim"

/-- `validateClaims` (auth.go): time claims, then audience, then scope;
the first failure (or panic) wins; the `iss` branch is a no-op. -/
def validateClaims (clientID requiredScope : String) (now : Int) (claims : Claims) : GoRes :=
  match validateTimeClaims now claims with
  | GoRes.ok =>
      match validateAudience clientID claims with
      | GoRes.ok => validateScope requiredScope claims
      | r => r
  | r => r

/-- `unicode.IsSpace` restricted to the code points Go treats as white
space in the Latin-1 range (the validator only ever sees header bytes). -/
def goIsSpace (c : Char) : Bool :=
  c = ' ' || c = '\t' || c = '\n' || c = Char.ofNat 11 || c = Char.ofNat 12 ||
  c = '\r' || c = Char.ofNat 0x85 || c = Char.ofNat 0xA0

/-- Accumulating worker for `strings.Fields`: `cur` holds the characters
of the current field in reverse. -/
def fieldsAux : List Char → List Char → List String
  | [], cur => if cur.isEmpty then [] else [String.mk cur.reverse]
  | c :: rest, cur =>
      if goIsSpace c then
        if cur.isEmpty then fieldsAux rest []
        else String.mk cur.reverse :: fieldsAux rest []
      else fieldsAux rest (c :: cur)

/-- `strings.Fields`: split around runs of white space. -/
def goFields (s : String) : List String := fieldsAux s.data []

/-- ASCII model of `strings.ToLower`. -/
def toLowerStr (s : String) : String := String.mk (s.data.map Char.toLower)

/-- `extractToken` (auth.go): empty header yields empty; otherwise the
header must split into exactly two fields whose first lowercases to
`"bearer"`, and the second field is the token. -/
def extractToken (authHeader : String) : String :=
  if authHeader = "" then ""
  else
    match goFields authHeader with
    | [a, b] => if toLowerStr a = "bearer" then b else ""
    | _ => ""

/-- `CachedToken` (auth.go): a cached validated token. `ExpiresAt` is an
`Option` because the Go zero `time.Time` (left when the token has no
numeric `exp` claim) acts as an "unset" sentinel tested with `IsZero`. -/
structure CachedToken where
  claims : Claims
  expiresAt : Option Int
  validated : Int
deriving DecidableEq, Repr

/-- `ValidationResult` (auth.go); `claimsOut` is `none` for the Go nil
claims map of failure results. -/
structure ValidationResult where
  valid : Bool
  claimsOut : Option Claims
  error : String
  errorCode : String
deriving DecidableEq, Repr

/-- The mutable state of a `JWTValidator`: the validation cache and the
revocation registry (the two lock-guarded maps). -/
structure VState where
  tokenCache : AList CachedToken
  revokedTokens : AList Int
deriving DecidableEq, Repr

/-- The configuration of a `JWTValidator` relevant after signature
verification: expected audience, required scope, cache TTL (seconds). -/
structure Cfg where
  clientID : String
  scope : String
  cacheTTL : Int
deriving DecidableEq, Repr

/-- `isTokenRevoked` (auth.go): a missing entry is not revoked; an entry
older than 24 hours (`time.Since(revokedAt) > 24*time.Hour`) is purged
and reported not revoked; otherwise revoked. Returns the answer and the
possibly purged registry. -/
def isTokenRevoked (revoked : AList Int) (tokenString : String) (now : Int) :
    Bool × AList Int :=
  match alookup revoked tokenString with
  | none => (false, revoked)
  | some revokedAt =>
      if now - revokedAt > 24 * 60 * 60 then (false, aerase revoked tokenString)
      else (true, revoked)

/-- `RevokeToken` (auth.go): record `{token, now}`, overwriting any
previous timestamp; the validation cache is untouched. -/
def RevokeToken (st : VState) (tokenString : String) (now : Int) : VState :=
  { st with revokedTokens := ainsert st.revokedTokens tokenString now }

/-- `cacheToken` (auth.go): store the claims under the raw token; the
`ExpiresAt` field is set only from a numeric `exp` claim (otherwise it
stays the zero time), and `Validated` is the current time. -/
def cacheToken (cache : AList CachedToken) (tokenString : String) (claims : Claims)
    (now : Int) : AList CachedToken :=
  ainsert cache tokenString
    { claims := claims, expiresAt := numClaim claims "exp", validated := now }

/-- `getCachedToken` (auth.go): a present entry is a hit unless the
cache TTL has elapsed (`now.After(Validated + cacheTTL)`) or the stored
`ExpiresAt` is set and past (`!IsZero && now.After(ExpiresAt)`). The
function reads the map and never removes anything from it. -/
def getCachedToken (cache : AList CachedToken) (tokenString : String) (cacheTTL now : Int) :
    Option CachedToken :=
  match alookup cache tokenString with
  | none => none
  | some cached =>
      if now > cached.validated + cacheTTL then none
      else
        match cached.expiresAt with
        | some e => if now > e then none else some cached
        | none => some cached

/-- Outcome of `jwt.Parse(tokenString, v.jwks.Keyfunc, ...)` together
with the `token.Claims.(jwt.MapClaims)` assertion; the cryptographic
verification against the external JWKS is the oracle input of the model. -/
inductive ParseOutcome where
  | parseErr (msg : String)
  | notMapClaims
  | parsed (claims : Claims)
deriving DecidableEq, Repr

/-- Result of a Go function that returns a value or panics. -/
inductive GoOut (α : Type) where
  | panic
  | ret (a : α)
deriving DecidableEq, Repr

/-- `ValidateRequest` (auth.go): extract the token; empty →
`MISSING_TOKEN`; revoked → `TOKEN_REVOKED`; cache hit → valid with the
cached claims; parse/signature failure → `INVALID_TOKEN`; non-map claims
or claim-validation failure → `INVALID_CLAIMS`; otherwise cache and
accept. A panic inside claim validation propagates. The returned state
reflects the registry purge and the cache insert. -/
def ValidateRequest (cfg : Cfg) (st : VState) (now : Int) (authHeader : String)
    (po : ParseOutcome) : GoOut (ValidationResult × VState) :=
  let tokenString := extractToken authHeader
  if tokenString = "" then
    GoOut.ret ({ valid := false, claimsOut := none,
                 error := "Authorization header is required",
                 errorCode := "MISSING_TOKEN" }, st)
  else
    let rev := isTokenRevoked st.revokedTokens tokenString now
    let st1 : VState := { st with revokedTokens := rev.2 }
    if rev.1 then
      GoOut.ret ({ valid := false, claimsOut := none,
                   error := "Token has been revoked",
                   errorCode := "TOKEN_REVOKED" }, st1)
    else
      match getCachedToken st1.tokenCache tokenString cfg.cacheTTL now with
      | some cached =>
          GoOut.ret ({ valid := true, claimsOut := some cached.claims,
                       error := "", errorCode := "" }, st1)
      | none =>
          match po with
          | ParseOutcome.parseErr msg =>
              GoOut.ret ({ valid := false, claimsOut := none,
                           error := "Token validation failed: " ++ msg,
                           errorCode := "INVALID_TOKEN" }, st1)
          | ParseOutcome.notMapClaims =>
              GoOut.ret ({ valid := false, claimsOut := none,
                           error := "Invalid token claims",
                           errorCode := "INVALID_CLAIMS" }, st1)
          | ParseOutcome.parsed claims =>
              match validateClaims cfg.clientID cfg.scope now claims with
              | GoRes.panic => GoOut.panic
              | GoRes.err e =>
                  GoOut.ret ({ valid := false, claimsOut := none,
                               error := e, errorCode := "INVALID_CLAIMS" }, st1)
              | GoRes.ok =>
                  GoOut.ret ({ valid := true, claimsOut := some claims,
                               error := "", errorCode := "" },
                             { st1 with
                               tokenCache := cacheToken st1.tokenCache tokenString claims now })

/-- Projection of a `ValidateRequest` outcome onto the returned
`ValidationResult`, discarding the post-state. -/
def resultOf : GoOut (ValidationResult × VState) → GoOut ValidationResult
  | GoOut.panic => GoOut.panic
  | GoOut.ret (r, _) => GoOut.ret r

theorem alookup_ainsert_self {α : Type} (m : AList α) (k : String) (v : α) :
    alookup (ainsert m k v) k = some v := by
  induction m with
  | nil => simp [ainsert, alookup]
  | cons hd tl ih =>
      obtain ⟨k₀, v₀⟩ := hd
      by_cases h₀ : k₀ = k <;> simp [ainsert, alookup, h₀, ih]

theorem alookup_ainsert_ne {α : Type} (m : AList α) (k k' : String) (v : α)
    (h : k' ≠ k) : alookup (ainsert m k v) k' = alookup m k' := by
  have h' : k ≠ k' := fun hh => h hh.symm
  induction m with
  | nil => simp [ainsert, alookup, h']
  | cons hd tl ih =>
      obtain ⟨k₀, v₀⟩ := hd
      by_cases h₀ : k₀ = k
      · subst h₀
        simp [ainsert, alookup, h']
      · by_cases h₁ : k₀ = k' <;> simp [ainsert, alookup, h₀, h₁, h, h', ih]

theorem alookup_ainsert_isSome {α : Type} (m : AList α) (k k' : String) (v v' : α)
    (h : alookup m k' = some v') :
    ∃ w, alookup (ainsert m k v) k' = some w := by
  by_cases hk : k' = k
  · subst hk
    exact ⟨v, alookup_ainsert_self m k' v⟩
  · exact ⟨v', by rw [alookup_ainsert_ne m k k' v hk, h]⟩

theorem isTokenRevoked_fst_true (m : AList Int) (t : String) (n : Int)
    (h : (isTokenRevoked m t n).1 = true) : (isTokenRevoked m t n).2 = m := by
  cases hl : alookup m t with
  | none => simp [isTokenRevoked, hl]
  | some rt =>
      by_cases hc : (86400 : Int) < n - rt
      · simp [isTokenRevoked, hl, hc] at h
      · simp [isTokenRevoked, hl, hc]

/-- C1: the spec demands that no panic propagate out of validation for
attacker-controlled input, every wrongly typed claim degrading to a
validation failure. The code reads the `aud` claim through the unchecked
type assertion `aud.(string)`, so a signed token whose claim set carries
a non-string `aud` makes `ValidateRequest` panic instead of returning
`Valid=false`: the code contradicts the stated (and clearly intended)
safety property. -/
theorem C1_nonstring_aud_panics :
    ValidateRequest { clientID := "app", scope := "", cacheTTL := 300 }
      { tokenCache := [], revokedTokens := [] } 1000 "Bearer tok"
      (ParseOutcome.parsed [("aud", JValue.num 42)]) = GoOut.panic := by
  decide

/-- C6: audience validation succeeds exactly when the `aud` claim is
present as a string whose value, after stripping an optional `"api://"`,
equals the configured client id; a claim set without `aud` always fails
with the missing-audience error. -/
theorem C6_audience_characterization (clientID : String) (claims : Claims) :
    (validateAudience clientID claims = GoRes.ok ↔
      ∃ s, alookup claims "aud" = some (JValue.str s) ∧ stripApi s = clientID) ∧
    (alookup claims "aud" = none →
      validateAudience clientID claims = GoRes.err "missing audience claim") := by
  constructor
  · unfold validateAudience
    cases hl : alookup claims "aud" with
    | none => simp
    | some v =>
        cases v with
        | str s =>
            by_cases hs : stripApi s = clientID <;> simp [hs]
        | num n => simp
        | other => simp
  · intro h
    simp [validateAudience, h]

theorem C6_audience_characterization_witness :
    validateAudience "svc-a" [("sub", JValue.str "u1")]
      = GoRes.err "missing audience claim" :=
  (C6_audience_characterization "svc-a" [("sub", JValue.str "u1")]).2 (by decide)

/-- C5 counterexample: the claim states each time-check message appears
iff its condition holds, but the checks are ordered: with `exp` expired
and `iat` far in the future, the `iat` condition holds yet the result is
"token has expired", never "token issued in the future". -/
theorem C5_time_priority_counterexample :
    validateTimeClaims 1000 [("exp", JValue.num 0), ("iat", JValue.num 999999)]
      = GoRes.err "token has expired" ∧
    ((999999 : Int) > 1000 + 5 * 60) ∧
    validateTimeClaims 1000 [("exp", JValue.num 0), ("iat", JValue.num 999999)]
      ≠ GoRes.err "token issued in the future" := by
  decide

/-- C5 amended: the three time checks run in the order `exp`, `iat`,
`nbf`, each consulted only when present with numeric type, and the first
failing check decides the message; "token has expired" appears iff the
`exp` condition holds, each later message iff its condition holds and
every earlier check passed, and the whole validation passes iff no
condition holds. Absent (or non-numeric) claims pass their check. -/
theorem C5_time_claims_characterization (now : Int) (claims : Claims) :
    (validateTimeClaims now claims = GoRes.err "token has expired" ↔
      ∃ e, numClaim claims "exp" = some e ∧ e < now) ∧
    (validateTimeClaims now claims = GoRes.err "token issued in the future" ↔
      (∀ e, numClaim claims "exp" = some e → ¬ e < now) ∧
      ∃ i, numClaim claims "iat" = some i ∧ i > now + 5 * 60) ∧
    (validateTimeClaims now claims = GoRes.err "token not yet valid" ↔
      (∀ e, numClaim claims "exp" = some e → ¬ e < now) ∧
      (∀ i, numClaim claims "iat" = some i → ¬ i > now + 5 * 60) ∧
      ∃ nb, numClaim claims "nbf" = some nb ∧ nb > now) ∧
    (validateTimeClaims now claims = GoRes.ok ↔
      (∀ e, numClaim claims "exp" = some e → ¬ e < now) ∧
      (∀ i, numClaim claims "iat" = some i → ¬ i > now + 5 * 60) ∧
      (∀ nb, numClaim claims "nbf" = some nb → ¬ nb > now)) := by
  cases hexp : numClaim claims "exp" <;> cases hiat : numClaim claims "iat" <;>
    cases hnbf : numClaim claims "nbf" <;>
      simp [validateTimeClaims, hexp, hiat, hnbf, Option.any] <;>
        split_ifs <;> simp_all

theorem C5_time_claims_characterization_witness :
    validateTimeClaims 50 [("exp", JValue.num 10)] = GoRes.err "token has expired" :=
  ((C5_time_claims_characterization 50 [("exp", JValue.num 10)]).1).2
    ⟨10, by decide, by decide⟩

/-- C3 counterexample: with cache TTL 300, an entry cached at time 0 for
a token whose `exp` claim is 10000 stores `ExpiresAt = 10000`, not the
earlier of validation time + TTL (300) and `exp`; the claim's
description of the stored `ExpiresAt` field is false. -/
theorem C3_expiresAt_counterexample :
    (alookup (cacheToken [] "tok" [("exp", JValue.num 10000)] 0) "tok").map
        CachedToken.expiresAt = some (some 10000) ∧
    min ((0 : Int) + 300) 10000 = 300 ∧ ((10000 : Int) ≠ 300) := by
  decide

/-- C3 amended: `cacheToken` stores the token's own numeric `exp` claim
(unset when absent or non-numeric) in `ExpiresAt` and the validation
time in `Validated`; a lookup hits exactly while `now` is at or before
`Validated + cacheTTL` and at or before the stored `ExpiresAt` when set
— past either limit it misses; for entries with `exp` present the hit
window is therefore `now ≤ min (Validated + cacheTTL) exp`. -/
theorem C3_cache_hit_characterization (cache : AList CachedToken) (tok : String)
    (claims : Claims) (ttl now t : Int) :
    (alookup (cacheToken cache tok claims t) tok
      = some { claims := claims, expiresAt := numClaim claims "exp", validated := t }) ∧
    (∀ c : CachedToken,
      getCachedToken cache tok ttl now = some c ↔
        alookup cache tok = some c ∧ now ≤ c.validated + ttl ∧
        ∀ e, c.expiresAt = some e → now ≤ e) ∧
    (∀ v e : Int, (now ≤ v + ttl ∧ now ≤ e) ↔ now ≤ min (v + ttl) e) := by
  refine ⟨alookup_ainsert_self _ _ _, ?_, by intro v e; omega⟩
  intro c
  unfold getCachedToken
  cases hl : alookup cache tok with
  | none => simp [hl]
  | some c₀ =>
      simp only [hl]
      by_cases h₁ : now > c₀.validated + ttl
      · simp only [if_pos h₁]
        constructor
        · intro h
          cases h
        · rintro ⟨hc, h₂, -⟩
          injection hc with hc
          subst hc
          omega
      · simp only [if_neg h₁]
        cases he : c₀.expiresAt with
        | none =>
            constructor
            · intro h
              injection h with h
              subst h
              refine ⟨rfl, by omega, ?_⟩
              intro e hee
              rw [he] at hee
              cases hee
            · rintro ⟨hc, -, -⟩
              injection hc with hc
              rw [hc]
        | some e₀ =>
            by_cases h₂ : now > e₀
            · simp only [if_pos h₂]
              constructor
              · intro h
                cases h
              · rintro ⟨hc, -, h₃⟩
                injection hc with hc
                subst hc
                have := h₃ e₀ he
                omega
            · simp only [if_neg h₂]
              constructor
              · intro h
                injection h with h
                subst h
                refine ⟨rfl, by omega, ?_⟩
                intro e hee
                rw [he] at hee
                injection hee with hee
                omega
              · rintro ⟨hc, -, -⟩
                injection hc with hc
                rw [hc]

theorem C3_cache_hit_characterization_witness :
    alookup (cacheToken [] "t" [("exp", JValue.num 7)] 3) "t"
      = some { claims := [("exp", JValue.num 7)], expiresAt := some 7, validated := 3 } :=
  (C3_cache_hit_characterization [] "t" [("exp", JValue.num 7)] 5 4 3).1

theorem data_mk (l : List Char) : (String.mk l).data = l := rfl

theorem fieldsAux_sound (l : List Char) :
    ∀ (cur : List Char), (∀ c ∈ cur, goIsSpace c = false) →
      ∀ f ∈ fieldsAux l cur, f.data ≠ [] ∧ ∀ c ∈ f.data, goIsSpace c = false := by
  induction l with
  | nil =>
      intro cur hcur f hf
      by_cases hc : cur.isEmpty
      · simp [fieldsAux, hc] at hf
      · simp [fieldsAux, hc] at hf
        subst hf
        have hne : cur ≠ [] := by simpa using hc
        refine ⟨by simpa [data_mk] using hne, ?_⟩
        intro ch hch
        rw [data_mk] at hch
        exact hcur ch (List.mem_reverse.mp hch)
  | cons c rest ih =>
      intro cur hcur f hf
      by_cases hsp : goIsSpace c
      · by_cases hc : cur.isEmpty
        · simp [fieldsAux, hsp, hc] at hf
          exact ih [] (by intro x hx; cases hx) f hf
        · simp [fieldsAux, hsp, hc] at hf
          rcases hf with hf | hf
          · subst hf
            have hne : cur ≠ [] := by simpa using hc
            refine ⟨by simpa [data_mk] using hne, ?_⟩
            intro ch hch
            rw [data_mk] at hch
            exact hcur ch (List.mem_reverse.mp hch)
          · exact ih [] (by intro x hx; cases hx) f hf
      · simp [fieldsAux, hsp] at hf
        refine ih (c :: cur) ?_ f hf
        intro x hx
        rcases List.mem_cons.mp hx with hx | hx
        · subst hx
          exact Bool.eq_false_iff.mpr hsp
        · exact hcur x hx

theorem goFields_sound (s : String) :
    ∀ f ∈ goFields s, f ≠ "" ∧ ∀ c ∈ f.data, goIsSpace c = false := by
  intro f hf
  have h := fieldsAux_sound s.data [] (by intro x hx; cases hx) f hf
  refine ⟨?_, h.2⟩
  intro hemp
  subst hemp
  exact h.1 rfl

theorem extractToken_eq_match (h : String) :
    extractToken h =
      match goFields h with
      | [a, b] => if toLowerStr a = "bearer" then b else ""
      | _ => "" := by
  by_cases hh : h = ""
  · subst hh
    rfl
  · simp [extractToken, hh]

/-- C7: extraction returns a non-empty token exactly when the header
splits on white space into two fields with the first case-insensitively
`"bearer"`; in that case the result is the second field, which is
non-empty and carries no white space; every other shape (empty header,
one field, three or more fields, wrong scheme) yields the empty string;
`"Bearer   abc123   "` extracts to `"abc123"` and `"Bearer"` to empty. -/
theorem C7_extract_characterization :
    (∀ h : String,
      (extractToken h ≠ "" ↔
        ∃ a b, goFields h = [a, b] ∧ toLowerStr a = "bearer") ∧
      (∀ a b, goFields h = [a, b] → toLowerStr a = "bearer" →
        extractToken h = b ∧ b ≠ "" ∧ ∀ c ∈ b.data, goIsSpace c = false)) ∧
    extractToken "Bearer   abc123   " = "abc123" ∧
    extractToken "Bearer" = "" ∧
    extractToken "" = "" := by
  refine ⟨?_, by decide, by decide, by decide⟩
  intro h
  have hkey : ∀ a b, goFields h = [a, b] → toLowerStr a = "bearer" →
      extractToken h = b ∧ b ≠ "" ∧ ∀ c ∈ b.data, goIsSpace c = false := by
    intro a b hgf hlow
    have hb := goFields_sound h b (by rw [hgf]; simp)
    refine ⟨?_, hb.1, hb.2⟩
    rw [extractToken_eq_match, hgf]
    simp [hlow]
  refine ⟨?_, hkey⟩
  constructor
  · intro hne
    rw [extractToken_eq_match] at hne
    cases hgf : goFields h with
    | nil => rw [hgf] at hne; simp at hne
    | cons a tl =>
        cases tl with
        | nil => rw [hgf] at hne; simp at hne
        | cons b tl2 =>
            cases tl2 with
            | nil =>
                rw [hgf] at hne
                by_cases hlow : toLowerStr a = "bearer"
                · exact ⟨a, b, rfl, hlow⟩
                · simp [hlow] at hne
            | cons d tl3 => rw [hgf] at hne; simp at hne
  · rintro ⟨a, b, hgf, hlow⟩
    obtain ⟨he, hbne, -⟩ := hkey a b hgf hlow
    rw [he]
    exact hbne

theorem C7_extract_characterization_witness :
    extractToken "Bearer abc" = "abc" :=
  (((C7_extract_characterization.1 "Bearer abc").2) "Bearer" "abc"
    (by decide) (by decide)).1

/-- C2: a token whose revocation record is at most 24 hours old is
rejected with `TOKEN_REVOKED` by `ValidateRequest`, whatever the
validation cache holds for it and whatever the parse oracle would say:
the revocation check runs before the cache lookup, and the state is
returned unchanged. -/
theorem C2_revocation_precedes_cache (cfg : Cfg) (st : VState) (now : Int)
    (h : String) (po : ParseOutcome) (rt : Int)
    (hne : extractToken h ≠ "")
    (hrev : alookup st.revokedTokens (extractToken h) = some rt)
    (hwin : now - rt ≤ 24 * 60 * 60) :
    ValidateRequest cfg st now h po =
      GoOut.ret ({ valid := false, claimsOut := none,
                   error := "Token has been revoked",
                   errorCode := "TOKEN_REVOKED" }, st) := by
  have hcond : ¬ ((86400 : Int) < now - rt) := by omega
  have hrv : isTokenRevoked st.revokedTokens (extractToken h) now
      = (true, st.revokedTokens) := by
    simp [isTokenRevoked, hrev, hcond]
  simp [ValidateRequest, hne, hrv]

theorem C2_revocation_precedes_cache_witness :
    ValidateRequest { clientID := "app", scope := "", cacheTTL := 300 }
      { tokenCache := [("tok", { claims := [("aud", JValue.str "app")],
                                 expiresAt := none, validated := 900 })],
        revokedTokens := [("tok", 950)] } 1000 "Bearer tok" ParseOutcome.notMapClaims =
      GoOut.ret ({ valid := false, claimsOut := none,
                   error := "Token has been revoked",
                   errorCode := "TOKEN_REVOKED" },
        { tokenCache := [("tok", { claims := [("aud", JValue.str "app")],
                                   expiresAt := none, validated := 900 })],
          revokedTokens := [("tok", 950)] }) :=
  C2_revocation_precedes_cache
    { clientID := "app", scope := "", cacheTTL := 300 }
    { tokenCache := [("tok", { claims := [("aud", JValue.str "app")],
                               expiresAt := none, validated := 900 })],
      revokedTokens := [("tok", 950)] }
    1000 "Bearer tok" ParseOutcome.notMapClaims 950
    (by decide) (by decide) (by decide)

theorem ValidateRequest_result_congr (cfg : Cfg) (st₁ st₂ : VState) (now : Int)
    (h : String) (po : ParseOutcome)
    (hcache : st₁.tokenCache = st₂.tokenCache)
    (hrev : ∀ t, (isTokenRevoked st₁.revokedTokens t now).1 =
                 (isTokenRevoked st₂.revokedTokens t now).1) :
    resultOf (ValidateRequest cfg st₁ now h po) =
      resultOf (ValidateRequest cfg st₂ now h po) := by
  by_cases hne : extractToken h = ""
  · simp [ValidateRequest, hne, resultOf]
  · have hr := hrev (extractToken h)
    cases hb : (isTokenRevoked st₁.revokedTokens (extractToken h) now).1 with
    | true =>
        have hb₂ : (isTokenRevoked st₂.revokedTokens (extractToken h) now).1 = true := by
          rw [← hr, hb]
        simp [ValidateRequest, hne, hb, hb₂, resultOf]
    | false =>
        have hb₂ : (isTokenRevoked st₂.revokedTokens (extractToken h) now).1 = false := by
          rw [← hr, hb]
        cases hc : getCachedToken st₂.tokenCache (extractToken h) cfg.cacheTTL now with
        | some c => simp [ValidateRequest, hne, hb, hb₂, hcache, hc, resultOf]
        | none =>
            cases po with
            | parseErr m => simp [ValidateRequest, hne, hb, hb₂, hcache, hc, resultOf]
            | notMapClaims => simp [ValidateRequest, hne, hb, hb₂, hcache, hc, resultOf]
            | parsed cl =>
                cases hv : validateClaims cfg.clientID cfg.scope now cl with
                | panic => simp [ValidateRequest, hne, hb, hb₂, hcache, hc, hv, resultOf]
                | err e => simp [ValidateRequest, hne, hb, hb₂, hcache, hc, hv, resultOf]
                | ok => simp [ValidateRequest, hne, hb, hb₂, hcache, hc, hv, resultOf]

/-- C8: revoking the same token twice (at `t₁` then `t₂`) is observably
the same as revoking it once: while the retention window of the first
revocation has not elapsed, every `isTokenRevoked` query answers the
same, and every `ValidateRequest` (any header, any parse outcome)
returns the same `ValidationResult`. -/
theorem C8_revoke_idempotent (st : VState) (tok : String) (t₁ t₂ q : Int)
    (cfg : Cfg) (h : String) (po : ParseOutcome)
    (h12 : t₁ ≤ t₂) (h2q : t₂ ≤ q) (hwin : q ≤ t₁ + 24 * 60 * 60) :
    (∀ t', (isTokenRevoked (RevokeToken st tok t₁).revokedTokens t' q).1 =
           (isTokenRevoked (RevokeToken (RevokeToken st tok t₁) tok t₂).revokedTokens t' q).1) ∧
    resultOf (ValidateRequest cfg (RevokeToken st tok t₁) q h po) =
      resultOf (ValidateRequest cfg (RevokeToken (RevokeToken st tok t₁) tok t₂) q h po) := by
  have hfst : ∀ t', (isTokenRevoked (RevokeToken st tok t₁).revokedTokens t' q).1 =
      (isTokenRevoked (RevokeToken (RevokeToken st tok t₁) tok t₂).revokedTokens t' q).1 := by
    intro t'
    by_cases ht : t' = tok
    · subst ht
      have l₁ : alookup (ainsert st.revokedTokens t' t₁) t' = some t₁ :=
        alookup_ainsert_self _ _ _
      have l₂ : alookup (ainsert (ainsert st.revokedTokens t' t₁) t' t₂) t' = some t₂ :=
        alookup_ainsert_self _ _ _
      have c₁ : ¬ ((86400 : Int) < q - t₁) := by omega
      have c₂ : ¬ ((86400 : Int) < q - t₂) := by omega
      simp [RevokeToken, isTokenRevoked, l₁, l₂, c₁, c₂]
    · have l₁ := alookup_ainsert_ne st.revokedTokens tok t' t₁ ht
      have l₂ := alookup_ainsert_ne (ainsert st.revokedTokens tok t₁) tok t' t₂ ht
      simp [RevokeToken, isTokenRevoked, l₁, l₂]
      cases hl : alookup st.revokedTokens t' with
      | none => simp
      | some rt => by_cases hc : (86400 : Int) < q - rt <;> simp [hc]
  exact ⟨hfst, ValidateRequest_result_congr cfg _ _ q h po rfl hfst⟩

theorem C8_revoke_idempotent_witness :
    ((isTokenRevoked (RevokeToken { tokenCache := [], revokedTokens := [] } "t" 0).revokedTokens
        "t" 100).1 =
      (isTokenRevoked (RevokeToken (RevokeToken { tokenCache := [], revokedTokens := [] } "t" 0)
        "t" 10).revokedTokens "t" 100).1) ∧
    resultOf (ValidateRequest { clientID := "app", scope := "", cacheTTL := 300 }
        (RevokeToken { tokenCache := [], revokedTokens := [] } "t" 0) 100 "Bearer t"
        ParseOutcome.notMapClaims) =
      resultOf (ValidateRequest { clientID := "app", scope := "", cacheTTL := 300 }
        (RevokeToken (RevokeToken { tokenCache := [], revokedTokens := [] } "t" 0) "t" 10) 100
        "Bearer t" ParseOutcome.notMapClaims) :=
  ⟨(C8_revoke_idempotent { tokenCache := [], revokedTokens := [] } "t" 0 10 100
      { clientID := "app", scope := "", cacheTTL := 300 } "Bearer t" ParseOutcome.notMapClaims
      (by decide) (by decide) (by decide)).1 "t",
   (C8_revoke_idempotent { tokenCache := [], revokedTokens := [] } "t" 0 10 100
      { clientID := "app", scope := "", cacheTTL := 300 } "Bearer t" ParseOutcome.notMapClaims
      (by decide) (by decide) (by decide)).2⟩

/-- C9 counterexample: with TTL 300, an entry validated at time 0 and
read at time 1000 is expired, so the read misses — yet the entry is
still present in the cache afterwards: the full `ValidateRequest` pass
over that state (parse failing) returns a state whose cache still
contains the entry. The code never deletes from the validation cache. -/
theorem C9_read_does_not_evict_counterexample :
    getCachedToken [("tok", { claims := [], expiresAt := none, validated := 0 })] "tok" 300 1000
      = none ∧
    ValidateRequest { clientID := "app", scope := "", cacheTTL := 300 }
      { tokenCache := [("tok", { claims := [], expiresAt := none, validated := 0 })],
        revokedTokens := [] } 1000 "Bearer tok" (ParseOutcome.parseErr "signature invalid")
      = GoOut.ret ({ valid := false, claimsOut := none,
                     error := "Token validation failed: signature invalid",
                     errorCode := "INVALID_TOKEN" },
          { tokenCache := [("tok", { claims := [], expiresAt := none, validated := 0 })],
            revokedTokens := [] }) ∧
    alookup [("tok", ({ claims := [], expiresAt := none, validated := 0 } : CachedToken))] "tok"
      = some { claims := [], expiresAt := none, validated := 0 } := by
  decide

/-- C9 amended: reading a cache entry past its TTL (or past its stored
expiry) is a miss, but nothing is evicted: `getCachedToken` never
mutates the cache, and no `ValidateRequest` outcome ever removes a cache
entry — an existing entry survives every request (possibly overwritten
by a re-validation of the same token). -/
theorem C9_no_cache_eviction :
    (∀ (cache : AList CachedToken) (tok : String) (ttl now : Int) (c : CachedToken),
      alookup cache tok = some c → now > c.validated + ttl →
      getCachedToken cache tok ttl now = none) ∧
    (∀ (cfg : Cfg) (st : VState) (now : Int) (h : String) (po : ParseOutcome)
       (res : ValidationResult) (st' : VState),
      ValidateRequest cfg st now h po = GoOut.ret (res, st') →
      ∀ t c, alookup st.tokenCache t = some c →
        ∃ c', alookup st'.tokenCache t = some c') := by
  constructor
  · intro cache tok ttl now c hl hexp
    simp [getCachedToken, hl, hexp]
  · intro cfg st now h po res st' hret t c hl
    by_cases hne : extractToken h = ""
    · simp [ValidateRequest, hne] at hret
      rw [← hret.2]
      exact ⟨c, hl⟩
    · cases hb : (isTokenRevoked st.revokedTokens (extractToken h) now).1 with
      | true =>
          simp [ValidateRequest, hne, hb] at hret
          rw [← hret.2]
          exact ⟨c, hl⟩
      | false =>
          cases hc : getCachedToken st.tokenCache (extractToken h) cfg.cacheTTL now with
          | some c₀ =>
              simp [ValidateRequest, hne, hb, hc] at hret
              rw [← hret.2]
              exact ⟨c, hl⟩
          | none =>
              cases po with
              | parseErr m =>
                  simp [ValidateRequest, hne, hb, hc] at hret
                  rw [← hret.2]
                  exact ⟨c, hl⟩
              | notMapClaims =>
                  simp [ValidateRequest, hne, hb, hc] at hret
                  rw [← hret.2]
                  exact ⟨c, hl⟩
              | parsed cl =>
                  cases hv : validateClaims cfg.clientID cfg.scope now cl with
                  | panic => simp [ValidateRequest, hne, hb, hc, hv] at hret
                  | err e =>
                      simp [ValidateRequest, hne, hb, hc, hv] at hret
                      rw [← hret.2]
                      exact ⟨c, hl⟩
                  | ok =>
                      simp [ValidateRequest, hne, hb, hc, hv] at hret
                      rw [← hret.2]
                      exact alookup_ainsert_isSome st.tokenCache (extractToken h) t _ c hl

theorem C9_no_cache_eviction_witness :
    getCachedToken [("k", { claims := [], expiresAt := none, validated := 0 })] "k" 10 50
      = none :=
  C9_no_cache_eviction.1 [("k", { claims := [], expiresAt := none, validated := 0 })]
    "k" 10 50 { claims := [], expiresAt := none, validated := 0 } (by decide) (by decide)

/-- C10: `RevokeToken` writes only the revocation registry — the
validation cache is untouched and other tokens' revocation records are
unchanged — so rejecting a revoked-but-cached token rests entirely on
the revocation check preceding the cache lookup; and once the
revocation record has aged past 24 hours, a `ValidateRequest` finding a
still-live cache entry purges the stale record and serves the cached
claims as `Valid=true` again. -/
theorem C10_revoke_frame :
    (∀ (st : VState) (tok : String) (t : Int),
      (RevokeToken st tok t).tokenCache = st.tokenCache ∧
      ∀ t', t' ≠ tok →
        alookup (RevokeToken st tok t).revokedTokens t' = alookup st.revokedTokens t') ∧
    (∀ (cfg : Cfg) (st : VState) (now : Int) (h : String) (po : ParseOutcome)
       (rt : Int) (c : CachedToken),
      extractToken h ≠ "" →
      alookup st.revokedTokens (extractToken h) = some rt →
      now - rt > 24 * 60 * 60 →
      getCachedToken st.tokenCache (extractToken h) cfg.cacheTTL now = some c →
      ValidateRequest cfg st now h po =
        GoOut.ret ({ valid := true, claimsOut := some c.claims, error := "", errorCode := "" },
          { st with revokedTokens := aerase st.revokedTokens (extractToken h) })) := by
  constructor
  · intro st tok t
    exact ⟨rfl, fun t' ht => alookup_ainsert_ne st.revokedTokens tok t' t ht⟩
  · intro cfg st now h po rt c hne hrev hold hc
    have hcond : (86400 : Int) < now - rt := by omega
    have hrv : isTokenRevoked st.revokedTokens (extractToken h) now
        = (false, aerase st.revokedTokens (extractToken h)) := by
      simp [isTokenRevoked, hrev, hcond]
    simp [ValidateRequest, hne, hrv, hc]

theorem C10_revoke_frame_witness :
    ((RevokeToken { tokenCache := [], revokedTokens := [] } "a" 5).tokenCache = [] ∧
      alookup (RevokeToken { tokenCache := [], revokedTokens := [] } "a" 5).revokedTokens "b"
        = alookup ([] : AList Int) "b") ∧
    ValidateRequest { clientID := "app", scope := "", cacheTTL := 2000000 }
      { tokenCache := [("tok", { claims := [("aud", JValue.str "app")],
                                 expiresAt := none, validated := 0 })],
        revokedTokens := [("tok", 0)] } 1000000 "Bearer tok" ParseOutcome.notMapClaims =
      GoOut.ret ({ valid := true, claimsOut := some [("aud", JValue.str "app")],
                   error := "", errorCode := "" },
        { tokenCache := [("tok", { claims := [("aud", JValue.str "app")],
                                   expiresAt := none, validated := 0 })],
          revokedTokens := [] }) :=
  ⟨⟨(C10_revoke_frame.1 { tokenCache := [], revokedTokens := [] } "a" 5).1,
    (C10_revoke_frame.1 { tokenCache := [], revokedTokens := [] } "a" 5).2 "b" (by decide)⟩,
   C10_revoke_frame.2 { clientID := "app", scope := "", cacheTTL := 2000000 }
     { tokenCache := [("tok", { claims := [("aud", JValue.str "app")],
                                expiresAt := none, validated := 0 })],
       revokedTokens := [("tok", 0)] } 1000000 "Bearer tok" ParseOutcome.notMapClaims 0
     { claims := [("aud", JValue.str "app")], expiresAt := none, validated := 0 }
     (by decide) (by decide) (by decide) (by decide)⟩

/-- C4: the validation pipeline runs extract → revocation → cache →
parse → claim validation in that order, each stage short-circuiting
with its own terminal code: empty token → `MISSING_TOKEN`; revoked →
`TOKEN_REVOKED`; cache hit → `Valid=true` with the cached claims (the
parse oracle and claim validation are never consulted); parse failure →
`INVALID_TOKEN`; non-map or invalid claims → `INVALID_CLAIMS` carrying
the detail message; otherwise the claims are cached and `Valid=true` is
returned. Every returned error code is one of these four (or empty on
success). -/
theorem C4_pipeline_stages (cfg : Cfg) (st : VState) (now : Int) (h : String)
    (po : ParseOutcome) :
    (extractToken h = "" →
      ValidateRequest cfg st now h po =
        GoOut.ret ({ valid := false, claimsOut := none,
                     error := "Authorization header is required",
                     errorCode := "MISSING_TOKEN" }, st)) ∧
    (extractToken h ≠ "" →
      (isTokenRevoked st.revokedTokens (extractToken h) now).1 = true →
      ValidateRequest cfg st now h po =
        GoOut.ret ({ valid := false, claimsOut := none,
                     error := "Token has been revoked",
                     errorCode := "TOKEN_REVOKED" }, st)) ∧
    (∀ c, extractToken h ≠ "" →
      (isTokenRevoked st.revokedTokens (extractToken h) now).1 = false →
      getCachedToken st.tokenCache (extractToken h) cfg.cacheTTL now = some c →
      ValidateRequest cfg st now h po =
        GoOut.ret ({ valid := true, claimsOut := some c.claims, error := "", errorCode := "" },
          { st with revokedTokens := (isTokenRevoked st.revokedTokens (extractToken h) now).2 })) ∧
    (∀ m, extractToken h ≠ "" →
      (isTokenRevoked st.revokedTokens (extractToken h) now).1 = false →
      getCachedToken st.tokenCache (extractToken h) cfg.cacheTTL now = none →
      po = ParseOutcome.parseErr m →
      ValidateRequest cfg st now h po =
        GoOut.ret ({ valid := false, claimsOut := none,
                     error := "Token validation failed: " ++ m,
                     errorCode := "INVALID_TOKEN" },
          { st with revokedTokens := (isTokenRevoked st.revokedTokens (extractToken h) now).2 })) ∧
    (extractToken h ≠ "" →
      (isTokenRevoked st.revokedTokens (extractToken h) now).1 = false →
      getCachedToken st.tokenCache (extractToken h) cfg.cacheTTL now = none →
      po = ParseOutcome.notMapClaims →
      ValidateRequest cfg st now h po =
        GoOut.ret ({ valid := false, claimsOut := none,
                     error := "Invalid token claims",
                     errorCode := "INVALID_CLAIMS" },
          { st with revokedTokens := (isTokenRevoked st.revokedTokens (extractToken h) now).2 })) ∧
    (∀ cl e, extractToken h ≠ "" →
      (isTokenRevoked st.revokedTokens (extractToken h) now).1 = false →
      getCachedToken st.tokenCache (extractToken h) cfg.cacheTTL now = none →
      po = ParseOutcome.parsed cl →
      validateClaims cfg.clientID cfg.scope now cl = GoRes.err e →
      ValidateRequest cfg st now h po =
        GoOut.ret ({ valid := false, claimsOut := none,
                     error := e, errorCode := "INVALID_CLAIMS" },
          { st with revokedTokens := (isTokenRevoked st.revokedTokens (extractToken h) now).2 })) ∧
    (∀ cl, extractToken h ≠ "" →
      (isTokenRevoked st.revokedTokens (extractToken h) now).1 = false →
      getCachedToken st.tokenCache (extractToken h) cfg.cacheTTL now = none →
      po = ParseOutcome.parsed cl →
      validateClaims cfg.clientID cfg.scope now cl = GoRes.ok →
      ValidateRequest cfg st now h po =
        GoOut.ret ({ valid := true, claimsOut := some cl, error := "", errorCode := "" },
          { tokenCache := cacheToken st.tokenCache (extractToken h) cl now,
            revokedTokens := (isTokenRevoked st.revokedTokens (extractToken h) now).2 })) ∧
    (∀ res st'', ValidateRequest cfg st now h po = GoOut.ret (res, st'') →
      res.errorCode = "" ∨ res.errorCode = "MISSING_TOKEN" ∨
      res.errorCode = "TOKEN_REVOKED" ∨ res.errorCode = "INVALID_TOKEN" ∨
      res.errorCode = "INVALID_CLAIMS") := by
  refine ⟨?_, ?_, ?_, ?_, ?_, ?_, ?_, ?_⟩
  · intro hemp
    simp [ValidateRequest, hemp]
  · intro hne hb
    have h2 := isTokenRevoked_fst_true st.revokedTokens (extractToken h) now hb
    simp [ValidateRequest, hne, hb, h2]
  · intro c hne hb hc
    simp [ValidateRequest, hne, hb, hc]
  · intro m hne hb hc hpo
    subst hpo
    simp [ValidateRequest, hne, hb, hc]
  · intro hne hb hc hpo
    subst hpo
    simp [ValidateRequest, hne, hb, hc]
  · intro cl e hne hb hc hpo hv
    subst hpo
    simp [ValidateRequest, hne, hb, hc, hv]
  · intro cl hne hb hc hpo hv
    subst hpo
    simp [ValidateRequest, hne, hb, hc, hv, cacheToken]
  · intro res st'' hret
    by_cases hne : extractToken h = ""
    · simp [ValidateRequest, hne] at hret
      rw [← hret.1]
      simp
    · cases hb : (isTokenRevoked st.revokedTokens (extractToken h) now).1 with
      | true =>
          simp [ValidateRequest, hne, hb] at hret
          rw [← hret.1]
          simp
      | false =>
          cases hc : getCachedToken st.tokenCache (extractToken h) cfg.cacheTTL now with
          | some c₀ =>
              simp [ValidateRequest, hne, hb, hc] at hret
              rw [← hret.1]
              simp
          | none =>
              cases po with
              | parseErr m =>
                  simp [ValidateRequest, hne, hb, hc] at hret
                  rw [← hret.1]
                  simp
              | notMapClaims =>
                  simp [ValidateRequest, hne, hb, hc] at hret
                  rw [← hret.1]
                  simp
              | parsed cl =>
                  cases hv : validateClaims cfg.clientID cfg.scope now cl with
                  | panic => simp [ValidateRequest, hne, hb, hc, hv] at hret
                  | err e =>
                      simp [ValidateRequest, hne, hb, hc, hv] at hret
                      rw [← hret.1]
                      simp
                  | ok =>
                      simp [ValidateRequest, hne, hb, hc, hv] at hret
                      rw [← hret.1]
                      simp

theorem C4_pipeline_stages_witness :
    ValidateRequest { clientID := "app", scope := "", cacheTTL := 300 }
      { tokenCache := [], revokedTokens := [] } 1000 "NoBearer" ParseOutcome.notMapClaims =
      GoOut.ret ({ valid := false, claimsOut := none,
                   error := "Authorization header is required",
                   errorCode := "MISSING_TOKEN" },
        { tokenCache := [], revokedTokens := [] }) :=
  (C4_pipeline_stages { clientID := "app", scope := "", cacheTTL := 300 }
    { tokenCache := [], revokedTokens := [] } 1000 "NoBearer" ParseOutcome.notMapClaims).1
    (by decide)

end Auth
